import Mathlib

/-!
Shallow embedding of `src/bikes.py` (the `SearchQuery` class of the BikeAPI
repository) and verification of the frozen claims about it.

Modelling conventions:
* A Python `dict` with string keys is an insertion-ordered association list
  with unique keys (`PyDict`); values are `Option String`, where `none` models
  Python's `None`.
* Python's `str.strip()` is `String.trim`, `str.split(sep)` is
  `String.splitOn`, and `str.removesuffix(sep)` is `removesuffix` below.
* Network interaction is modelled by oracle inputs: the status code returned
  by the availability check (`requests.head`) and the decoded body returned by
  `requests.get`.  A decoded body is modelled as carrying its `bikes` field.
* `print` calls are not modelled; a Python exception that escapes a method is
  modelled by a dedicated error value (`none` of an `Option`, or a dedicated
  constructor of an outcome type), never silently dropped.
-/

namespace Bikes

/-- One Python dict with string keys: insertion-ordered list of key/value
pairs, keys unique.  A value `none` models Python's `None`. -/
abbrev PyDict := List (String × Option String)

/-- The parameter set of a query (`self.params` when present). -/
abbrev Params := PyDict

/-- One result record (an element of the decoded `bikes` list). -/
abbrev Rec := PyDict

/-- Python dict assignment `d[k] = v`: replaces the value in place if the key
is present (keeping its position), otherwise appends the new pair. -/
def dictInsert : PyDict → String → Option String → PyDict
  | [], k, v => [(k, v)]
  | (k', v') :: rest, k, v =>
    if k' = k then (k', v) :: rest else (k', v') :: dictInsert rest k v

/-- Python dict lookup `d[k]`: `none` models a `KeyError` (key missing),
`some w` returns the stored value `w` (itself `none` when the stored value is
Python's `None`). -/
def dictFind : PyDict → String → Option (Option String)
  | [], _ => none
  | (k', v) :: rest, k => if k' = k then some v else dictFind rest k

/-- Python `str.split(sep)` on the character list, for a one-character
separator (the source only splits on `"-"`, `"="` and `"."`): cuts at every
occurrence of the separator, keeping empty pieces, so the result always has
one more piece than there are separators. -/
def splitOnChar (c : Char) : List Char → List (List Char)
  | [] => [[]]
  | x :: rest =>
    if x = c then [] :: splitOnChar c rest
    else
      match splitOnChar c rest with
      | [] => [[x]]
      | piece :: more => (x :: piece) :: more

/-- Python `str.split(sep)` for a one-character separator. -/
def pySplit (c : Char) (s : String) : List String :=
  (splitOnChar c s.data).map String.mk

/-- Python `str.strip()`: removes leading and trailing whitespace. -/
def pyStrip (s : String) : String :=
  String.mk
    (((s.data.dropWhile Char.isWhitespace).reverse.dropWhile
      Char.isWhitespace).reverse)

/-- Python `str.endswith(suf)`. -/
def endswith (s suf : String) : Bool :=
  suf.data.isSuffixOf s.data

/-- Python `str.removesuffix(suf)`: drops one copy of `suf` from the end of
`s` when `s` ends with `suf`, otherwise returns `s` unchanged. -/
def removesuffix (s suf : String) : String :=
  if suf.data.isSuffixOf s.data then
    String.mk (s.data.take (s.data.length - suf.data.length))
  else s

/-- Concatenation of a list of strings, in order. -/
def concatAll : List String → String
  | [] => ""
  | s :: rest => s ++ concatAll rest

/-- The strings of a list joined by a separator, with no leading or trailing
separator (used to state the claims about joined `key=value` segments). -/
def joinSep (sep : String) : List String → String
  | [] => ""
  | [s] => s
  | s :: t :: rest => s ++ sep ++ joinSep sep (t :: rest)

/-! ## Embedding of the SearchQuery methods -/

/-- The base URL literal of `url_builder` (`bikes.py` line 26); note the
trailing `?`. -/
def base_url : String := "https://bikeindex.org/api/v3/search?"

/-- `SearchQuery.url_builder` (`bikes.py` lines 24-33): starting from
`base_url`, appends `key=value&` for every parameter whose value is neither
`None` nor the empty string, then removes one trailing `&`. -/
def url_builder (params : Option Params) : String :=
  match params with
  | none => base_url
  | some ps =>
    let full := ps.foldl (fun acc pv =>
      match pv.2 with
      | none => acc
      | some v => if v = "" then acc else acc ++ pv.1 ++ "=" ++ v ++ "&") base_url
    removesuffix full "&"

/-- `SearchQuery.is_empty` (`bikes.py` lines 135-137): `self.params is None`.
It tests absence only, never emptiness of a present dict. -/
def is_empty (params : Option Params) : Bool :=
  params.isNone

/-- `SearchQuery._subdir_name` (`bikes.py` lines 103-116): `None` when the
parameter set is absent; otherwise concatenates `key=value_` for every
parameter whose value is not `None` (empty-string values are kept), removes
one trailing `_`, and finally removes a trailing literal `"& C"` if present. -/
def subdir_name (params : Option Params) : Option String :=
  if is_empty params then none
  else
    match params with
    | none => none
    | some ps =>
      let name := ps.foldl (fun acc pv =>
        match pv.2 with
        | none => acc
        | some v => acc ++ pv.1 ++ "=" ++ v ++ "_") ""
      some (removesuffix (removesuffix name "_") "& C")

/-- `SearchQuery.split_params` (`bikes.py` lines 118-129): `None` input gives
`None`; otherwise the input is stripped and split on `-`, and each piece `p`
contributes `p.split("=")[0].strip() : p.split("=")[1].strip()` to a dict
built left to right (last wins on a repeated key).  A piece with no `=` makes
the index access raise `IndexError`, which the source catches, printing a
message and returning `None`; the guard below models exactly that condition. -/
def split_params (p_string : Option String) : Option Params :=
  match p_string with
  | none => none
  | some s =>
    let pieces := pySplit '-' (pyStrip s)
    if pieces.all (fun p => decide (2 ≤ (pySplit '=' p).length)) then
      some (pieces.foldl (fun d p =>
        match pySplit '=' p with
        | k :: v :: _ => dictInsert d (pyStrip k) (some (pyStrip v))
        | _ => d) [])
    else none

/-- A decoded GET response body.  `set_results` reads `result["bikes"]`, so a
successful body is modelled as carrying its `bikes` list of records. -/
structure Response where
  bikes : List Rec
deriving DecidableEq

/-- The mutable state of a `SearchQuery` object (`bikes.py` lines 12-18). -/
structure SearchQuery where
  params : Option Params
  url : String
  status : Option Nat
  results : Option (List Rec)
  json : Option Response
deriving DecidableEq

/-- `SearchQuery.__init__` (`bikes.py` lines 12-18): stores the optional
parameter set, derives the initial URL from it, and leaves status, results and
json unset. -/
def initQuery (params : Option Params) : SearchQuery :=
  { params := params
    url := url_builder params
    status := none
    results := none
    json := none }

/-- `SearchQuery.get` (`bikes.py` lines 43-57).  The network is an oracle:
`status` is what `requests.head` reports and `body` the decoded body a
successful `requests.get` would return.  The method resets the URL, stores the
status, and aborts (printing "The given URL is not available" and returning
`None`) when the status is not 200 or the parameter set is absent; otherwise
it stores the `bikes` list as results, stores the body, and returns it. -/
def SearchQuery.get (q : SearchQuery) (status : Nat) (body : Response) :
    SearchQuery × Option Response :=
  let q1 : SearchQuery := { q with url := url_builder q.params }
  let q2 : SearchQuery := { q1 with status := some status }
  if status != 200 || is_empty q2.params then
    (q2, none)
  else
    ({ q2 with results := some body.bikes, json := some body }, some body)

/-- `SearchQuery.set_params` (`bikes.py` lines 131-133): replaces the
parameter set with the parse of the given string; does not touch the URL. -/
def SearchQuery.set_params (q : SearchQuery) (p_string : Option String) :
    SearchQuery :=
  { q with params := split_params p_string }

/-- Python's rendering of a value in an f-string: `None` prints as "None". -/
def pyStr : Option String → String
  | none => "None"
  | some s => s

/-- The filename `save_images` writes for one image descriptor
(`bikes.py` lines 84-85): the title, a dot, and the final dot-segment of the
image URL. -/
def imageFilename (img : Option String × String) : String :=
  pyStr img.1 ++ "." ++ (pySplit '.' img.2).getLastD ""

/-- The filtering pass of `save_images` (`bikes.py` lines 70-74): walks the
records in order and keeps a `(title, url)` descriptor for each record whose
`large_img` value is not `None`.  A record in which `large_img` (or, for a
kept record, `title`) is missing makes the lookup raise `KeyError`, modelled
as `none`; nothing has been written to disk at that point. -/
def collectImages : List Rec → Option (List (Option String × String))
  | [] => some []
  | res :: rest =>
    match dictFind res "large_img" with
    | none => none
    | some none => collectImages rest
    | some (some imgUrl) =>
      match dictFind res "title" with
      | none => none
      | some t =>
        match collectImages rest with
        | none => none
        | some imgs => some ((t, imgUrl) :: imgs)

/-- Outcome of `save_images`. -/
inductive SaveOutcome where
  /-- A `KeyError` escaped during the filtering pass; no file was written. -/
  | keyFault : SaveOutcome
  /-- Zero qualifying images: prints "No images found." and returns `None`. -/
  | noImages : SaveOutcome
  /-- `_subdir` was given `None` and returned `None`; `save_images` returns
  `None` without writing. -/
  | noDir : SaveOutcome
  /-- The image descriptors returned and the filenames written, in order. -/
  | written : List (Option String × String) → List String → SaveOutcome
deriving DecidableEq

/-- `SearchQuery.save_images` (`bikes.py` lines 63-90): defaults the directory
name to `subdir_name` when absent, runs the filtering pass, returns `None` on
zero images or an absent directory name, and otherwise writes one file per
descriptor (file contents are downloaded bytes, not modelled). -/
def save_images (results : List Rec) (params : Option Params)
    (dir_name : Option String) : SaveOutcome :=
  let dn := match dir_name with
    | none => subdir_name params
    | some d => some d
  match collectImages results with
  | none => .keyFault
  | some images =>
    if images.length < 1 then .noImages
    else
      match dn with
      | none => .noDir
      | some _ => .written images (images.map imageFilename)

/-- Outcome of `cache_json`. -/
inductive CacheOutcome where
  /-- The uncaught `TypeError` from `self._subdir_name() + ".json"` when the
  derived name is `None`. -/
  | typeFault : CacheOutcome
  /-- The filename written (a `PermissionError` there is caught and only
  reported, so it still ends this way). -/
  | written : String → CacheOutcome
deriving DecidableEq

/-- `SearchQuery.cache_json` (`bikes.py` lines 139-151): defaults the name to
the derived subdirectory name suffixed with `.json` — an unguarded
concatenation that raises `TypeError` when that name is `None` — then ensures
a `.json` suffix and writes the stored body under that name. -/
def cache_json (params : Option Params) (name : Option String) : CacheOutcome :=
  match name with
  | some n => .written (if endswith n ".json" then n else n ++ ".json")
  | none =>
    match subdir_name params with
    | none => .typeFault
    | some base =>
      let n := base ++ ".json"
      .written (if endswith n ".json" then n else n ++ ".json")

/-! ## Client state machine

One client object: constructed once, then driven by any sequence of method
calls.  `save_images`, `cache_json` and `preview` never assign to the object's
fields, so they leave the state unchanged; `set_params` and `get` mutate it as
in the source. -/

/-- A method call on the client, with the network oracle's answers inlined. -/
inductive Op where
  | setParams : Option String → Op
  | get : Nat → Response → Op
  | saveImages : Option String → Op
  | cacheJson : Option String → Op
  | preview : Op
deriving DecidableEq

/-- Effect of one method call on the client's fields. -/
def step (q : SearchQuery) : Op → SearchQuery
  | .setParams s => q.set_params s
  | .get status body => (q.get status body).1
  | .saveImages _ => q
  | .cacheJson _ => q
  | .preview => q

/-- The client state after construction with `params` followed by the calls
in `ops`, in order. -/
def run (params : Option Params) (ops : List Op) : SearchQuery :=
  ops.foldl step (initQuery params)

/-! ## Definitions used to state the claims -/

/-- The URL segment an entry contributes: `key=value` when the value is
neither absent nor the empty string, nothing otherwise. -/
def segOf (pv : String × Option String) : Option String :=
  match pv.2 with
  | none => none
  | some v => if v = "" then none else some (pv.1 ++ "=" ++ v)

/-- The `key=value` segments of a parameter set, one per entry whose value is
neither absent nor the empty string, in parameter order. -/
def segments (ps : Params) : List String :=
  ps.filterMap segOf

/-- The `key=value` rendering of one entry (values all present). -/
def pairSeg (pv : String × Option String) : String :=
  pv.1 ++ "=" ++ pv.2.getD ""

/-- The name segment an entry contributes in `subdir_name`: `key=value` when
the value is present (also when it is the empty string), nothing when the
value is absent. -/
def subSegU (pv : String × Option String) : Option String :=
  pv.2.map (fun v => pv.1 ++ "=" ++ v)

/-- The trimmed `(key, value)` pairs of a parameter string, in input order,
repeats kept: what each hyphen-separated piece of the input denotes before
the last-wins dict is built. -/
def rawPairs (s : String) : List (String × String) :=
  (pySplit '-' (pyStrip s)).filterMap fun p =>
    match pySplit '=' p with
    | k :: v :: _ => some (pyStrip k, pyStrip v)
    | _ => none

/-- Insert a list of string pairs into a dict, left to right. -/
def insertAll (d : Params) (pairs : List (String × String)) : Params :=
  pairs.foldl (fun d' kv => dictInsert d' kv.1 (some kv.2)) d

/-- The value of the last pair of the list carrying the given key, if any. -/
def lastVal : List (String × String) → String → Option String
  | [], _ => none
  | (k', v) :: rest, k =>
    match lastVal rest k with
    | some w => some w
    | none => if k' = k then some v else none

/-- Whether the call sequence, run from the given state, contains a `get`
whose availability check answered 200 while the parameter set was present
(non-absent) at the moment of the call. -/
def fetch200Present : SearchQuery → List Op → Bool
  | _, [] => false
  | q, op :: rest =>
    (match op with
     | .get status _ => status == 200 && q.params.isSome
     | _ => false) || fetch200Present (step q op) rest

/-- Whether the call sequence, run from the given state, contains a `get`
whose availability check answered 200 while the parameter set held at least
one entry at the moment of the call (the claim's literal reading of
"non-empty"). -/
def fetch200NonEmpty : SearchQuery → List Op → Bool
  | _, [] => false
  | q, op :: rest =>
    (match op with
     | .get status _ =>
       status == 200 && (match q.params with
         | some ps => !ps.isEmpty
         | none => false)
     | _ => false) || fetch200NonEmpty (step q op) rest

/-! ## Helper lemmas -/

theorem removesuffix_append (s t : String) : removesuffix (s ++ t) t = s := by
  unfold removesuffix
  rw [String.data_append, if_pos (List.isSuffixOf_iff_suffix.mpr
    (List.suffix_append s.data t.data))]
  have h1 : (s.data ++ t.data).length - t.data.length = s.data.length := by
    simp
  rw [h1, List.take_left' rfl]

theorem removesuffix_empty_left (suf : String) : removesuffix "" suf = "" := by
  unfold removesuffix
  split
  · rw [show ("" : String).data = [] from rfl, List.take_nil]
  · rfl

theorem foldl_skip_concat {α : Type} (f : α → Option String) (g : String → α → String)
    (hg : ∀ acc x, g acc x = match f x with | none => acc | some str => acc ++ str)
    (l : List α) : ∀ acc : String, l.foldl g acc = acc ++ concatAll (l.filterMap f) := by
  induction l with
  | nil => intro acc; simp [concatAll]
  | cons x rest ih =>
    intro acc
    rw [List.foldl_cons, hg, List.filterMap_cons]
    cases hfx : f x with
    | none => exact ih acc
    | some str => rw [ih, concatAll, ← String.append_assoc]

theorem concatAll_map_sep (sep : String) :
    ∀ l : List String, l ≠ [] →
      concatAll (l.map (fun s => s ++ sep)) = joinSep sep l ++ sep := by
  intro l
  induction l with
  | nil => intro h; exact absurd rfl h
  | cons x rest ih =>
    intro _
    cases rest with
    | nil => simp [concatAll, joinSep]
    | cons y rest2 =>
      have hih := ih (by simp)
      simp only [List.map_cons, concatAll, joinSep] at hih ⊢
      rw [hih]
      simp [String.append_assoc]

theorem removesuffix_join (pre sep : String) (hpre : removesuffix pre sep = pre)
    (l : List String) :
    removesuffix (pre ++ concatAll (l.map (fun s => s ++ sep))) sep =
      pre ++ joinSep sep l := by
  cases l with
  | nil => simpa [concatAll, joinSep] using hpre
  | cons x rest =>
    rw [concatAll_map_sep sep (x :: rest) (by simp), ← String.append_assoc,
      removesuffix_append]

theorem url_fold_eq (ps : Params) (acc : String) :
    ps.foldl (fun acc pv =>
      match pv.2 with
      | none => acc
      | some v => if v = "" then acc else acc ++ pv.1 ++ "=" ++ v ++ "&") acc
    = acc ++ concatAll ((segments ps).map (fun s => s ++ "&")) := by
  rw [segments, List.map_filterMap,
    foldl_skip_concat (fun pv => (segOf pv).map (fun s => s ++ "&")) _ ?_ ps acc]
  intro a pv
  cases hv : pv.2 with
  | none => simp [segOf, hv]
  | some v =>
    by_cases hvv : v = "" <;> simp [segOf, hv, hvv, String.append_assoc]

theorem url_builder_some (ps : Params) :
    url_builder (some ps) = base_url ++ joinSep "&" (segments ps) := by
  have hb : removesuffix base_url "&" = base_url := by decide
  simp only [url_builder]
  rw [url_fold_eq, removesuffix_join base_url "&" hb (segments ps)]

theorem subdir_fold_eq (ps : Params) (acc : String) :
    ps.foldl (fun acc pv =>
      match pv.2 with
      | none => acc
      | some v => acc ++ pv.1 ++ "=" ++ v ++ "_") acc
    = acc ++ concatAll ((ps.filterMap subSegU).map (fun s => s ++ "_")) := by
  rw [List.map_filterMap,
    foldl_skip_concat (fun pv => (subSegU pv).map (fun s => s ++ "_")) _ ?_ ps acc]
  intro a pv
  cases hv : pv.2 with
  | none => simp [subSegU, hv]
  | some v => simp [subSegU, hv, String.append_assoc]

theorem subdir_name_some (ps : Params) :
    subdir_name (some ps) =
      some (removesuffix (joinSep "_" (ps.filterMap subSegU)) "& C") := by
  have h := removesuffix_join "" "_" (removesuffix_empty_left "_") (ps.filterMap subSegU)
  rw [String.empty_append] at h
  simp only [subdir_name, is_empty, Option.isNone_some, Bool.false_eq_true,
    if_false]
  rw [subdir_fold_eq, String.empty_append, h, String.empty_append]

theorem dictFind_dictInsert (d : Params) (k q : String) (v : Option String) :
    dictFind (dictInsert d k v) q = if k = q then some v else dictFind d q := by
  induction d with
  | nil => simp [dictInsert, dictFind]
  | cons pv rest ih =>
    obtain ⟨k', v'⟩ := pv
    by_cases hk : k' = k
    · subst hk
      by_cases hq : k' = q <;> simp [dictInsert, dictFind, hq]
    · by_cases hq : k' = q
      · subst hq
        have : ¬ k = k' := fun hh => hk hh.symm
        simp [dictInsert, dictFind, hk, this]
      · simp [dictInsert, dictFind, hk, hq, ih]

theorem dictFind_insertAll (pairs : List (String × String)) :
    ∀ (d : Params) (q : String),
      dictFind (insertAll d pairs) q =
        match lastVal pairs q with
        | some w => some (some w)
        | none => dictFind d q := by
  induction pairs with
  | nil => intro d q; rfl
  | cons kv rest ih =>
    intro d q
    obtain ⟨k, v⟩ := kv
    have hstep : insertAll d ((k, v) :: rest) =
        insertAll (dictInsert d k (some v)) rest := rfl
    rw [hstep, ih]
    cases hl : lastVal rest q with
    | some w => simp [lastVal, hl]
    | none =>
      rw [dictFind_dictInsert]
      by_cases h : k = q <;> simp [lastVal, hl, h]

theorem foldPieces_insertAll (pieces : List String)
    (h : ∀ p ∈ pieces, 2 ≤ (pySplit '=' p).length) :
    ∀ d : Params,
      pieces.foldl (fun d p =>
        match pySplit '=' p with
        | k :: v :: _ => dictInsert d (pyStrip k) (some (pyStrip v))
        | _ => d) d
      = insertAll d (pieces.filterMap fun p =>
          match pySplit '=' p with
          | k :: v :: _ => some (pyStrip k, pyStrip v)
          | _ => none) := by
  induction pieces with
  | nil => intro d; rfl
  | cons p rest ih =>
    intro d
    have hp := h p (by simp)
    have hrest : ∀ p ∈ rest, 2 ≤ (pySplit '=' p).length :=
      fun p hp => h p (by simp [hp])
    cases hsp : pySplit '=' p with
    | nil => rw [hsp] at hp; simp at hp
    | cons k t =>
      cases t with
      | nil => rw [hsp] at hp; simp at hp
      | cons v tail =>
        rw [List.foldl_cons, List.filterMap_cons, hsp, ih hrest]
        rfl

theorem dictInsert_allSome (d : Params) (k : String) (v : String)
    (hd : ∀ pv ∈ d, pv.2.isSome) : ∀ pv ∈ dictInsert d k (some v), pv.2.isSome := by
  induction d with
  | nil => simp [dictInsert]
  | cons hd' rest ih =>
    obtain ⟨k', v'⟩ := hd'
    by_cases hk : k' = k
    · simp only [dictInsert, if_pos hk]
      intro pv hpv
      rcases List.mem_cons.mp hpv with rfl | hmem
      · rfl
      · exact hd pv (List.mem_cons_of_mem _ hmem)
    · simp only [dictInsert, if_neg hk]
      intro pv hpv
      rcases List.mem_cons.mp hpv with rfl | hmem
      · exact hd _ (List.mem_cons_self _ _)
      · exact ih (fun q hq => hd q (List.mem_cons_of_mem _ hq)) pv hmem

theorem split_params_values_some (s : String) (ps : Params)
    (h : split_params (some s) = some ps) : ∀ pv ∈ ps, pv.2.isSome := by
  have haux : ∀ (pieces : List String) (d : Params), (∀ pv ∈ d, pv.2.isSome) →
      ∀ pv ∈ pieces.foldl (fun d p =>
        match pySplit '=' p with
        | k :: v :: _ => dictInsert d (pyStrip k) (some (pyStrip v))
        | _ => d) d, pv.2.isSome := by
    intro pieces
    induction pieces with
    | nil => intro d hd; exact hd
    | cons p rest ih =>
      intro d hd
      rw [List.foldl_cons]
      cases hsp : pySplit '=' p with
      | nil => exact ih d hd
      | cons k t =>
        cases t with
        | nil => exact ih d hd
        | cons v tail =>
          exact ih _ (dictInsert_allSome d (pyStrip k) (pyStrip v) hd)
  simp only [split_params] at h
  split at h
  · exact (Option.some.injEq _ _).mp h ▸ haux _ [] (by simp)
  · exact absurd h (by simp)

theorem filterMap_subSegU_allSome (ps : Params) (h : ∀ pv ∈ ps, pv.2.isSome) :
    ps.filterMap subSegU = ps.map pairSeg := by
  induction ps with
  | nil => rfl
  | cons pv rest ih =>
    have h1 : pv.2.isSome := h pv (List.mem_cons_self _ _)
    cases hv : pv.2 with
    | none => rw [hv] at h1; cases h1
    | some v =>
      rw [List.filterMap_cons, List.map_cons,
        ih (fun q hq => h q (List.mem_cons_of_mem _ hq))]
      simp [subSegU, pairSeg, hv]

theorem collectImages_missing_key (results : List Rec)
    (h : ∃ r ∈ results, dictFind r "large_img" = none) :
    collectImages results = none := by
  induction results with
  | nil => rcases h with ⟨r, hr, _⟩; cases hr
  | cons r rest ih =>
    rcases h with ⟨r0, hr0, hmiss⟩
    rcases List.mem_cons.mp hr0 with rfl | hmem
    · simp [collectImages, hmiss]
    · have hrest := ih ⟨r0, hmem, hmiss⟩
      cases hbig : dictFind r "large_img" with
      | none => simp [collectImages, hbig]
      | some w =>
        cases w with
        | none => simp [collectImages, hbig, hrest]
        | some u =>
          cases ht : dictFind r "title" with
          | none => simp [collectImages, hbig, ht]
          | some t => simp [collectImages, hbig, ht, hrest]

theorem run_results_tracker (ops : List Op) :
    ∀ q : SearchQuery, (ops.foldl step q).results ≠ none →
      q.results ≠ none ∨ fetch200Present q ops = true := by
  induction ops with
  | nil => intro q h; exact Or.inl h
  | cons op rest ih =>
    intro q h
    rw [List.foldl_cons] at h
    rcases ih (step q op) h with h1 | h1
    · cases op with
      | setParams s => exact Or.inl h1
      | saveImages d => exact Or.inl h1
      | cacheJson d => exact Or.inl h1
      | preview => exact Or.inl h1
      | get status body =>
        by_cases hc : (status != 200 || is_empty q.params) = true
        · refine Or.inl ?_
          simpa [step, SearchQuery.get, hc] using h1
        · refine Or.inr ?_
          have h2 : (status == 200) = true := by
            rcases Bool.or_eq_false_iff.mp (Bool.eq_false_iff.mpr hc) with ⟨ha, _⟩
            simpa using ha
          have h3 : q.params.isSome = true := by
            rcases Bool.or_eq_false_iff.mp (Bool.eq_false_iff.mpr hc) with ⟨_, hb⟩
            simp [is_empty] at hb
            simp [Option.isSome_iff_ne_none, hb]
          simp [fetch200Present, h2, h3]
    · refine Or.inr ?_
      simp [fetch200Present, h1]

/-! ## The claims -/

/-- C1: for a parameter set holding at least one entry whose value is present
and non-empty, `url_builder` returns the base endpoint followed by `?` and
then the `key=value` segments of exactly the entries whose value is neither
absent nor the empty string (`segments`, in parameter order, skipped entries
contributing nothing), joined by `&` with no trailing separator; the segment
list is non-empty. -/
theorem url_builder_nonempty_params (ps : Params)
    (h : ∃ pv ∈ ps, ∃ v, pv.2 = some v ∧ v ≠ "") :
    url_builder (some ps) =
      "https://bikeindex.org/api/v3/search" ++ "?" ++ joinSep "&" (segments ps) ∧
    segments ps ≠ [] := by
  constructor
  · have hb : base_url = "https://bikeindex.org/api/v3/search" ++ "?" := by decide
    rw [url_builder_some, hb]
  · rcases h with ⟨pv, hmem, v, hv, hne⟩
    intro hnil
    rw [segments, List.filterMap_eq_nil_iff] at hnil
    have := hnil pv hmem
    simp [segOf, hv, hne] at this

/-- C1 witness: a concrete one-entry parameter set. -/
theorem url_builder_nonempty_params_witness :
    url_builder (some [("a", some "1")]) =
      "https://bikeindex.org/api/v3/search" ++ "?" ++
        joinSep "&" (segments [("a", some "1")]) ∧
    segments ([("a", some "1")] : Params) ≠ [] :=
  url_builder_nonempty_params [("a", some "1")]
    ⟨("a", some "1"), by decide, "1", rfl, by decide⟩

/-- C2: on a well-formed parameter string (every hyphen-separated piece of the
stripped input is a single `key=value` pair), `split_params` succeeds and
returns the dict built by inserting the whitespace-trimmed pairs left to
right; that dict maps every key to the value of its last occurrence (last-wins
map semantics); `split_params "a=1-b=2"` yields `{a: "1", b: "2"}`; an absent
input yields an absent output. -/
theorem split_params_wellformed (s : String)
    (h : ∀ p ∈ pySplit '-' (pyStrip s), (pySplit '=' p).length = 2) :
    split_params (some s) = some (insertAll [] (rawPairs s)) ∧
    (∀ k, dictFind (insertAll [] (rawPairs s)) k = (lastVal (rawPairs s) k).map some) ∧
    split_params (some "a=1-b=2") = some [("a", some "1"), ("b", some "2")] ∧
    split_params none = none := by
  refine ⟨?_, ?_, by decide, rfl⟩
  · have h2 : ∀ p ∈ pySplit '-' (pyStrip s), 2 ≤ (pySplit '=' p).length :=
      fun p hp => le_of_eq (h p hp).symm
    simp only [split_params]
    rw [if_pos]
    · rw [foldPieces_insertAll _ h2 []]
      rfl
    · rw [List.all_eq_true]
      intro p hp
      simpa using h2 p hp
  · intro k
    rw [dictFind_insertAll]
    cases lastVal (rawPairs s) k <;> rfl

/-- C2 witness: the concrete string of the claim. -/
theorem split_params_wellformed_witness :
    split_params (some "a=1-b=2") = some (insertAll [] (rawPairs "a=1-b=2")) ∧
    (∀ k, dictFind (insertAll [] (rawPairs "a=1-b=2")) k =
      (lastVal (rawPairs "a=1-b=2") k).map some) ∧
    split_params (some "a=1-b=2") = some [("a", some "1"), ("b", some "2")] ∧
    split_params none = none :=
  split_params_wellformed "a=1-b=2" (by decide)

/-- C3: `get` with an availability status other than 200, or with an absent
parameter set, aborts: it returns `None` (the empty/no-result signal; the
"not available" message is printed, nothing is raised) and leaves the
`results` field exactly as it was — in particular still unset when no prior
successful fetch occurred. -/
theorem get_unavailable_aborts (q : SearchQuery) (status : Nat) (body : Response)
    (h : status ≠ 200 ∨ q.params = none) :
    (q.get status body).2 = none ∧ (q.get status body).1.results = q.results := by
  have hc : (status != 200 || is_empty q.params) = true := by
    rcases h with h | h
    · simp [bne_iff_ne, h]
    · simp [is_empty, h]
  simp [SearchQuery.get, hc]

/-- C3 witness: a fresh client and a simulated 404. -/
theorem get_unavailable_aborts_witness :
    ((initQuery none).get 404 (Response.mk [])).2 = none ∧
    ((initQuery none).get 404 (Response.mk [])).1.results = (initQuery none).results :=
  get_unavailable_aborts (initQuery none) 404 (Response.mk []) (Or.inl (by decide))

/-- C4 as stated is false on the code: a client constructed with the
present-but-empty parameter set `{}` passes the availability gate — which
checks only absence — so a single `get` answered 200 sets `results`, yet no
fetch ever ran while the parameter set held an entry. -/
theorem results_nonempty_invariant_cex :
    (run (some []) [Op.get 200 (Response.mk [])]).results ≠ none ∧
    fetch200NonEmpty (initQuery (some [])) [Op.get 200 (Response.mk [])] = false :=
  ⟨by decide, rfl⟩

/-- C4 amended: over every state reachable by construction followed by any
sequence of method calls, `results` is set only if some `get` call was
performed whose availability check returned HTTP 200 while the parameter set
was present (non-absent) at that moment. -/
theorem results_present_invariant (params : Option Params) (ops : List Op)
    (h : (run params ops).results ≠ none) :
    fetch200Present (initQuery params) ops = true := by
  rcases run_results_tracker ops (initQuery params) h with h1 | h1
  · exact absurd rfl h1
  · exact h1

/-- C4 amended, witness: one successful fetch with a one-entry parameter set. -/
theorem results_present_invariant_witness :
    fetch200Present (initQuery (some [("page", some "1")]))
      [Op.get 200 (Response.mk [])] = true :=
  results_present_invariant (some [("page", some "1")])
    [Op.get 200 (Response.mk [])] (by decide)

/-- C5 as stated is false on the code: the parameter set parsed from
`"a=x& C"` has the single pair `a = "x& C"`, whose `key=value` rendering is
`"a=x& C"`, but `subdir_name` additionally strips the trailing literal
`"& C"` and yields `"a=x"`. -/
theorem subdir_name_roundtrip_cex :
    split_params (some "a=x& C") = some [("a", some "x& C")] ∧
    subdir_name (some [("a", some "x& C")]) = some "a=x" ∧
    joinSep "_" (([("a", some "x& C")] : Params).map pairSeg) = "a=x& C" ∧
    ("a=x" : String) ≠ "a=x& C" :=
  ⟨by decide, by decide, by decide, by decide⟩

/-- C5 amended: for every parameter set produced by a successful
`split_params` call, `subdir_name` yields the `key=value` pairs joined by
`_`, in original parameter order with no trailing `_`, except that a literal
trailing `"& C"` is additionally stripped from the joined name. -/
theorem subdir_name_roundtrip_amended (s : String) (ps : Params)
    (h : split_params (some s) = some ps) :
    subdir_name (some ps) =
      some (removesuffix (joinSep "_" (ps.map pairSeg)) "& C") := by
  rw [subdir_name_some, filterMap_subSegU_allSome ps (split_params_values_some s ps h)]

/-- C5 amended, witness: the round trip on `"a=1-b=2"`. -/
theorem subdir_name_roundtrip_amended_witness :
    subdir_name (some [("a", some "1"), ("b", some "2")]) =
      some (removesuffix
        (joinSep "_" (([("a", some "1"), ("b", some "2")] : Params).map pairSeg))
        "& C") :=
  subdir_name_roundtrip_amended "a=1-b=2" [("a", some "1"), ("b", some "2")]
    (by decide)

/-- C6: on any input in which some hyphen-separated piece has no `=`, the
index access raises `IndexError`, which `split_params` catches: it reports an
error message and returns the absent parameter set — a recoverable failure,
no exception reaches the caller. -/
theorem split_params_malformed_none (s : String)
    (h : ∃ p ∈ pySplit '-' (pyStrip s), (pySplit '=' p).length < 2) :
    split_params (some s) = none := by
  rcases h with ⟨p, hp, hlen⟩
  have hng : ¬ ((pySplit '-' (pyStrip s)).all
      (fun p => decide (2 ≤ (pySplit '=' p).length)) = true) := by
    intro hall
    rw [List.all_eq_true] at hall
    have h2 := hall p hp
    simp at h2
    omega
  simp only [split_params]
  rw [if_neg hng]

/-- C6 witness: the claim's own example `"a-b=2"`. -/
theorem split_params_malformed_none_witness :
    split_params (some "a-b=2") = none :=
  split_params_malformed_none "a-b=2" ⟨"a", by decide, by decide⟩

/-- C7 as stated is false on the code: `url_builder` of an absent parameter
set returns the base URL literal with its trailing `?`, which is not the bare
endpoint string `https://bikeindex.org/api/v3/search` named by the claim. -/
theorem url_builder_absent_cex :
    url_builder none = "https://bikeindex.org/api/v3/search?" ∧
    ("https://bikeindex.org/api/v3/search?" : String) ≠
      "https://bikeindex.org/api/v3/search" :=
  ⟨rfl, by decide⟩

/-- C7 amended: `url_builder` applied to an absent parameter set equals the
base endpoint followed by `?`. -/
theorem url_builder_absent_amended :
    url_builder none = "https://bikeindex.org/api/v3/search" ++ "?" := by
  decide

/-- C8: when `cache_json` is called with no explicit name while the derived
subdirectory name is absent (parameters absent), the unguarded default-name
concatenation `self._subdir_name() + ".json"` raises: the fault branch of the
embedding is reached instead of any recoverable "cannot derive name"
condition. -/
theorem cache_json_absent_fault (params : Option Params)
    (h : subdir_name params = none) :
    cache_json params none = CacheOutcome.typeFault := by
  simp [cache_json, h]

/-- C8 witness: absent parameters, no explicit name. -/
theorem cache_json_absent_fault_witness :
    cache_json none none = CacheOutcome.typeFault :=
  cache_json_absent_fault none rfl

/-- C9: whenever some record of the results list has no `large_img` key at
all (as opposed to mapping it to `None`), the filtering pass of `save_images`
raises the key-lookup fault before anything is written — the record is not
skipped — so `save_images` ends in the `keyFault` outcome, which writes no
file. -/
theorem save_images_missing_key_fault (results : List Rec)
    (params : Option Params) (dir_name : Option String)
    (h : ∃ r ∈ results, dictFind r "large_img" = none) :
    save_images results params dir_name = SaveOutcome.keyFault := by
  simp [save_images, collectImages_missing_key results h]

/-- C9 witness: one record carrying only a title. -/
theorem save_images_missing_key_fault_witness :
    save_images [[("title", some "X")]] none (some "out") = SaveOutcome.keyFault :=
  save_images_missing_key_fault [[("title", some "X")]] none (some "out")
    ⟨[("title", some "X")], by decide, by decide⟩

/-- C10: `is_empty` tests only absence: on a client whose parameter set is
the present-but-empty dict `{}` it returns `false`, so `get` with a 200
availability answer does not take the missing-parameters abort branch and
proceeds against the bare endpoint (the base URL), and `subdir_name` returns
the empty string rather than absent. -/
theorem is_empty_only_absence (q : SearchQuery) (body : Response)
    (h : q.params = some []) :
    is_empty q.params = false ∧
    (q.get 200 body).2 = some body ∧
    (q.get 200 body).1.results = some body.bikes ∧
    (q.get 200 body).1.url = base_url ∧
    subdir_name q.params = some "" := by
  obtain ⟨p, u, st, res, j⟩ := q
  dsimp only at h
  subst h
  refine ⟨rfl, rfl, rfl, ?_, rfl⟩
  show url_builder (some []) = base_url
  decide

/-- C10 witness: a client freshly constructed with the empty dict. -/
theorem is_empty_only_absence_witness :
    is_empty (initQuery (some [])).params = false ∧
    ((initQuery (some [])).get 200 (Response.mk [])).2 = some (Response.mk []) ∧
    ((initQuery (some [])).get 200 (Response.mk [])).1.results =
      some (Response.mk []).bikes ∧
    ((initQuery (some [])).get 200 (Response.mk [])).1.url = base_url ∧
    subdir_name (initQuery (some [])).params = some "" :=
  is_empty_only_absence (initQuery (some [])) (Response.mk []) rfl

end Bikes
